import Mathlib

/-!
Verification of the geojson2h3 conversion core (src/geojson2h3-1-2-0-1.js)
against its specification.

The JavaScript source is shallowly embedded below. External grid-library
operations (`h3.polyfill`, `h3.geoToH3`, `h3.h3ToGeoBoundary`,
`h3.h3SetToMultiPolygon`) are out of scope per the spec (§6.1) and are
modelled as an abstract structure of functions, `H3Lib`, over which all
theorems are parametric. JavaScript numbers are modelled as rationals,
H3 indexes ("CellId") as strings, and thrown `Error`s as `Except` values
carrying a typed error whose `message` reproduces the JS message string.
-/

namespace Geojson2h3

/-- H3 index, an opaque string identifier (spec §3 "CellId"). -/
abbrev CellId := String

/-- A coordinate pair `[lng, lat]` (JS arrays of two numbers). -/
abbrev Point := ℚ × ℚ

/-- A ring: ordered list of coordinate pairs (spec §3 "Ring"). -/
abbrev Ring := List Point

/-- Polygon coordinates: list of rings, outer ring first (spec §3). -/
abbrev Polygon := List Ring

/-- `var FEATURE = 'Feature'` (source line 21). -/
def FEATURE : String := "Feature"

/-- `var FEATURE_COLLECTION = 'FeatureCollection'` (source line 22). -/
def FEATURE_COLLECTION : String := "FeatureCollection"

/-- `var POLYGON = 'Polygon'` (source line 23). -/
def POLYGON : String := "Polygon"

/-- `var MULTI_POLYGON = 'MultiPolygon'` (source line 24). -/
def MULTI_POLYGON : String := "MultiPolygon"

/-- The external grid-indexing library (spec §6.1): the four operations the
core consumes, abstract here.  The boolean `geoJsonOrdering` flag the source
always passes as `true` / `{geoJson: true}` is baked in. -/
structure H3Lib where
  polyfill : Polygon → ℕ → List CellId
  geoToH3 : ℚ → ℚ → ℕ → CellId
  h3ToGeoBoundary : CellId → Ring
  h3SetToMultiPolygon : List CellId → List Polygon

/-- The `options` argument of `featureToH3Set`; `options.ensureOutput` is
falsy (`false`) when absent, like the JS default `options = {}`. -/
structure Options where
  ensureOutput : Bool := false
deriving DecidableEq

/-- Tail of `dedupFirst`: one pass with a seen-set, the semantics of the
source's `Array.from(new Set(out))` (insertion-order set, source line 47):
keep each element's first occurrence, drop the rest. -/
def dedupFirstAux : List CellId → List CellId → List CellId
  | _, [] => []
  | seen, x :: xs =>
      if x ∈ seen then dedupFirstAux seen xs
      else x :: dedupFirstAux (x :: seen) xs

/-- First-occurrence deduplication, the value semantics of JS
`Array.from(new Set(l))`. -/
def dedupFirst (l : List CellId) : List CellId := dedupFirstAux [] l

/-- `flatten` (source lines 36–48): concatenates the input arrays (the JS
loop pushes every element of every array into the first one, i.e. computes
the concatenation) and removes duplicates keeping first occurrences, via an
insertion-ordered `Set`.  For an empty input list `out` stays `null` and
`new Set(null)` is empty, so the result is `[]`, as here. -/
def flatten (arrays : List (List CellId)) : List CellId :=
  dedupFirst arrays.flatten

/-- `centroid` (source lines 56–67): sums the coordinates of the first ring
(`polygon[0]`) with a running count and divides.  In JS an empty `polygon`
would crash reading `undefined.length`; the model reads an empty loop,
a case excluded by hypothesis wherever it matters.  Division by a zero
count is `0` in `ℚ` (JS: `NaN`); again excluded by hypothesis where used. -/
def centroid (polygon : Polygon) : Point :=
  let loop := polygon.headD []
  let acc := loop.foldl
    (fun (a : ℚ × ℚ × ℚ) pt => (a.1 + pt.1, a.2.1 + pt.2, a.2.2 + 1))
    (0, 0, 0)
  (acc.1 / acc.2.2, acc.2.1 / acc.2.2)

/-- The unweighted vertex mean of a ring, as the spec words it (§4.4):
"arithmetic mean of all vertex coordinates in the outer ring".  Stated from
the spec, to be compared with the source's `centroid`. -/
def vertexMean (ring : Ring) : Point :=
  ((ring.map Prod.fst).sum / ring.length, (ring.map Prod.snd).sum / ring.length)

/-- A GeoJSON geometry value as the source consumes it: the `type` string
tags how `coordinates` is shaped.  Per the spec (§3, Invariants) a `type`
that does not match the shape of `coordinates` is a caller error and not
modelled: `otherGeom` carries any remaining `type` (including a missing
one, JS `undefined`). -/
inductive Geometry : Type
  | polygon (coordinates : Polygon)
  | multiPolygon (coordinates : List Polygon)
  | otherGeom (type : Option String)
      (hp : type ≠ some POLYGON) (hmp : type ≠ some MULTI_POLYGON)

/-- The `type` string of a geometry object (`geometry.type`, `none` when
the field is absent). -/
def Geometry.typeStr : Geometry → Option String
  | .polygon _ => some POLYGON
  | .multiPolygon _ => some MULTI_POLYGON
  | .otherGeom t _ _ => t

/-- `geometry && geometry.type` (source line 115): `undefined` when the
geometry itself is absent. -/
def geometryType (geometry : Option Geometry) : Option String :=
  geometry.bind Geometry.typeStr

/-- A GeoJSON-shaped input value to the fill engine: any JS object with the
three fields the source reads (`type`, `geometry`, `features`), each
possibly absent. -/
inductive GJ : Type
  | mk (type : Option String) (geometry : Option Geometry)
       (features : Option (List GJ)) : GJ

/-- The `type` field of an input value. -/
def GJ.type : GJ → Option String
  | .mk t _ _ => t

/-- The `geometry` field of an input value. -/
def GJ.geometry : GJ → Option Geometry
  | .mk _ g _ => g

/-- The `features` field of an input value. -/
def GJ.features : GJ → Option (List GJ)
  | .mk _ _ fs => fs

/-- Rendering of an optional string field inside a JS template literal:
an absent field prints as `undefined`. -/
def optStr : Option String → String
  | some s => s
  | none => "undefined"

/-- The errors the fill engine throws (spec §7).  `message` below gives the
exact JS `Error` message of each. -/
inductive FillError : Type
  | noFeatures
  | unhandledType (type : Option String)
  | unhandledGeometryType (geometryType : Option String)
deriving DecidableEq

/-- The JS `Error` message of each `FillError` (source lines 80, 122, 125). -/
def FillError.message : FillError → String
  | .noFeatures => "No features found"
  | .unhandledType t => "Unhandled type: " ++ optStr t
  | .unhandledGeometryType t => "Unhandled geometry type: " ++ optStr t

/-- The per-polygon closure inside `featureToH3Set` (source lines 133–143):
polyfill the polygon; on an empty result with `options.ensureOutput`, index
the centroid instead. -/
def polyfillPolygon (h3 : H3Lib) (resolution : ℕ) (options : Options)
    (polygon : Polygon) : List CellId :=
  let result := h3.polyfill polygon resolution
  if result.length ≠ 0 ∨ options.ensureOutput = false then result
  else
    let ref := centroid polygon
    [h3.geoToH3 ref.2 ref.1 resolution]

mutual

/-- `featureToH3Set` (source lines 110–145), the fill engine: dispatch on
`feature.type`, validate the geometry type, normalize a Polygon to a
one-element MultiPolygon, polyfill each polygon and flatten. -/
def featureToH3Set (h3 : H3Lib) (feature : GJ) (resolution : ℕ)
    (options : Options) : Except FillError (List CellId) :=
  match feature with
  | .mk type geometry features =>
    if type = some FEATURE_COLLECTION then
      -- featureCollectionToH3Set (source lines 77–83); note it passes no
      -- options to the recursive call, so members are filled with the
      -- default `{}`.
      match features with
      | none => .error .noFeatures
      | some fs => (mapFill h3 fs resolution).map flatten
    else if type ≠ some FEATURE then
      .error (.unhandledType type)
    else
      match geometry with
      | some (Geometry.polygon coords) =>
          .ok (flatten ([coords].map (polyfillPolygon h3 resolution options)))
      | some (Geometry.multiPolygon coords) =>
          .ok (flatten (coords.map (polyfillPolygon h3 resolution options)))
      | g => .error (.unhandledGeometryType (geometryType g))
termination_by sizeOf feature

/-- `features.map(function (feature) { return featureToH3Set(feature, resolution); })`
(source line 82) under exception propagation: JS `map` runs left to right
and the first thrown error aborts the whole call.  The recursive call takes
the default options `{}` exactly as in the source. -/
def mapFill (h3 : H3Lib) (features : List GJ) (resolution : ℕ) :
    Except FillError (List (List CellId)) :=
  match features with
  | [] => .ok []
  | f :: rest => do
      let s ← featureToH3Set h3 f resolution {}
      let ss ← mapFill h3 rest resolution
      pure (s :: ss)
termination_by sizeOf features

end

/-! ### Emit engine -/

/-- Feature properties: an opaque JS object, modelled as a string-keyed
association list; `{}` is `[]`. -/
abbrev Props := List (String × String)

/-- The `coordinates` value of an emitted geometry: shaped as Polygon
coordinates (a list of rings) or MultiPolygon coordinates, matching the
emitted `type` string. -/
inductive GeomCoords : Type
  | poly (rings : Polygon)
  | multi (polygons : List Polygon)
deriving DecidableEq

/-- An emitted GeoJSON geometry object. -/
structure GeometryOut where
  type : String
  coordinates : GeomCoords
deriving DecidableEq

/-- An emitted GeoJSON Feature object.  `id = none` models a JS object
without an `id` key. -/
structure FeatureOut where
  type : String
  id : Option CellId
  properties : Props
  geometry : GeometryOut
deriving DecidableEq

/-- An emitted GeoJSON FeatureCollection object. -/
structure FeatureCollectionOut where
  type : String
  features : List FeatureOut
deriving DecidableEq

/-- `h3ToFeature` (source lines 154–168): wrap one cell's boundary in an
array for a single-loop polygon; `id` is set to the index. -/
def h3ToFeature (h3 : H3Lib) (h3Index : CellId) (properties : Props := []) :
    FeatureOut :=
  let coordinates := [h3.h3ToGeoBoundary h3Index]
  { type := FEATURE
    id := some h3Index
    properties := properties
    geometry := { type := POLYGON, coordinates := GeomCoords.poly coordinates } }

/-- `h3SetToFeature` (source lines 181–198): merge the set into outline
loops; unwrap to a simple Polygon when there is at most one outline
(`polygons[0] || []` yields the first outline, or `[]` when there is
none). -/
def h3SetToFeature (h3 : H3Lib) (hexagons : List CellId)
    (properties : Props := []) : FeatureOut :=
  let polygons := h3.h3SetToMultiPolygon hexagons
  let type := if polygons.length > 1 then MULTI_POLYGON else POLYGON
  let coordinates :=
    if polygons.length > 1 then GeomCoords.multi polygons
    else GeomCoords.poly (polygons.headD [])
  { type := FEATURE
    id := none
    properties := properties
    geometry := { type := type, coordinates := coordinates } }

/-- `h3SetToMultiPolygonFeature` (source lines 210–223): one single-ring
outline per cell, no merging, always a MultiPolygon. -/
def h3SetToMultiPolygonFeature (h3 : H3Lib) (hexagons : List CellId)
    (properties : Props := []) : FeatureOut :=
  let coordinates := hexagons.map (fun h3Index => [h3.h3ToGeoBoundary h3Index])
  { type := FEATURE
    id := none
    properties := properties
    geometry := { type := MULTI_POLYGON
                  coordinates := GeomCoords.multi coordinates } }

/-- `h3SetToFeatureCollection` (source lines 236–247): a loop pushing one
`h3ToFeature` per cell, with caller-computed properties when a
`getProperties` function is supplied. -/
def h3SetToFeatureCollection (h3 : H3Lib) (hexagons : List CellId)
    (getProperties : Option (CellId → Props) := none) : FeatureCollectionOut :=
  let features := hexagons.foldl
    (fun acc h3Index =>
      let properties := match getProperties with
        | some g => g h3Index
        | none => []
      acc ++ [h3ToFeature h3 h3Index properties])
    []
  { type := FEATURE_COLLECTION, features := features }

/-! ### Step lemmas: one unfolding of the fill engine per input shape -/

/-- A FeatureCollection without a `features` field throws. -/
theorem featureToH3Set_fc_none (h3 : H3Lib) (g : Option Geometry) (r : ℕ)
    (o : Options) :
    featureToH3Set h3 (.mk (some "FeatureCollection") g none) r o
      = .error .noFeatures := by
  rw [featureToH3Set.eq_def]
  simp [FEATURE_COLLECTION]

/-- A FeatureCollection with a `features` list maps the fill over the
members (with default options) and flattens. -/
theorem featureToH3Set_fc_some (h3 : H3Lib) (g : Option Geometry)
    (fs : List GJ) (r : ℕ) (o : Options) :
    featureToH3Set h3 (.mk (some "FeatureCollection") g (some fs)) r o
      = (mapFill h3 fs r).map flatten := by
  rw [featureToH3Set.eq_def]
  simp [FEATURE_COLLECTION]

/-- A non-Feature, non-FeatureCollection type throws `unhandledType`. -/
theorem featureToH3Set_badtype (h3 : H3Lib) (t : Option String)
    (g : Option Geometry) (fs : Option (List GJ)) (r : ℕ) (o : Options)
    (ht : t ≠ some "FeatureCollection") (ht' : t ≠ some "Feature") :
    featureToH3Set h3 (.mk t g fs) r o = .error (.unhandledType t) := by
  rw [featureToH3Set.eq_def]
  simp [FEATURE_COLLECTION, FEATURE, ht, ht']

/-- A Feature with Polygon geometry is processed as the one-element
MultiPolygon `[coords]`. -/
theorem featureToH3Set_poly (h3 : H3Lib) (C : Polygon)
    (fs : Option (List GJ)) (r : ℕ) (o : Options) :
    featureToH3Set h3 (.mk (some "Feature") (some (.polygon C)) fs) r o
      = .ok (flatten ([C].map (polyfillPolygon h3 r o))) := by
  rw [featureToH3Set.eq_def]
  simp [FEATURE_COLLECTION, FEATURE]

/-- A Feature with MultiPolygon geometry polyfills each polygon and
flattens. -/
theorem featureToH3Set_multi (h3 : H3Lib) (C : List Polygon)
    (fs : Option (List GJ)) (r : ℕ) (o : Options) :
    featureToH3Set h3 (.mk (some "Feature") (some (.multiPolygon C)) fs) r o
      = .ok (flatten (C.map (polyfillPolygon h3 r o))) := by
  rw [featureToH3Set.eq_def]
  simp [FEATURE_COLLECTION, FEATURE]

/-- A Feature whose geometry type is neither Polygon nor MultiPolygon
(including an absent geometry) throws `unhandledGeometryType`. -/
theorem featureToH3Set_badgeom (h3 : H3Lib) (g : Option Geometry)
    (fs : Option (List GJ)) (r : ℕ) (o : Options)
    (hg : ∀ C, g ≠ some (.polygon C)) (hg' : ∀ C, g ≠ some (.multiPolygon C)) :
    featureToH3Set h3 (.mk (some "Feature") g fs) r o
      = .error (.unhandledGeometryType (geometryType g)) := by
  rw [featureToH3Set.eq_def]
  simp only [FEATURE_COLLECTION, FEATURE]
  match g with
  | none => simp
  | some (.polygon C) => exact absurd rfl (hg C)
  | some (.multiPolygon C) => exact absurd rfl (hg' C)
  | some (.otherGeom t hp hmp) => simp

/-- `mapFill` on the empty list. -/
theorem mapFill_nil (h3 : H3Lib) (r : ℕ) : mapFill h3 [] r = .ok [] := by
  rw [mapFill.eq_def]

/-- `mapFill` on a cons: fill the head with default options, propagating
the first error. -/
theorem mapFill_cons (h3 : H3Lib) (f : GJ) (rest : List GJ) (r : ℕ) :
    mapFill h3 (f :: rest) r
      = match featureToH3Set h3 f r {} with
        | .error e => .error e
        | .ok s =>
          match mapFill h3 rest r with
          | .error e => .error e
          | .ok ss => .ok (s :: ss) := by
  cases h1 : featureToH3Set h3 f r {} with
  | error e =>
    rw [mapFill.eq_def]
    simp [h1, Bind.bind, Except.bind]
  | ok s =>
    cases h2 : mapFill h3 rest r with
    | error e =>
      rw [mapFill.eq_def]
      simp [h1, h2, Bind.bind, Except.bind]
    | ok ss =>
      rw [mapFill.eq_def]
      simp [h1, h2, Bind.bind, Except.bind, Pure.pure, Except.pure]

/-! ### Properties of first-occurrence deduplication -/

/-- Membership in `dedupFirstAux`: exactly the elements of the input not
already seen. -/
theorem mem_dedupFirstAux {y : CellId} :
    ∀ (l seen : List CellId), y ∈ dedupFirstAux seen l ↔ y ∈ l ∧ y ∉ seen := by
  intro l
  induction l with
  | nil => intro seen; simp [dedupFirstAux]
  | cons x xs ih =>
    intro seen
    by_cases hx : x ∈ seen
    · rw [dedupFirstAux, if_pos hx, ih]
      constructor
      · rintro ⟨hy, hys⟩
        exact ⟨List.mem_cons_of_mem x hy, hys⟩
      · rintro ⟨hy, hys⟩
        rcases List.mem_cons.mp hy with h | h
        · exact absurd (h ▸ hx) hys
        · exact ⟨h, hys⟩
    · rw [dedupFirstAux, if_neg hx]
      simp only [List.mem_cons, ih]
      constructor
      · rintro (rfl | ⟨hy, hys⟩)
        · exact ⟨Or.inl rfl, hx⟩
        · exact ⟨Or.inr hy, fun hc => hys (Or.inr hc)⟩
      · rintro ⟨rfl | hy, hys⟩
        · exact Or.inl rfl
        · by_cases hyx : y = x
          · exact Or.inl hyx
          · exact Or.inr ⟨hy, by simp [hyx, hys]⟩

/-- `dedupFirstAux` never emits an element twice. -/
theorem nodup_dedupFirstAux :
    ∀ (l seen : List CellId), (dedupFirstAux seen l).Nodup := by
  intro l
  induction l with
  | nil => intro seen; simp [dedupFirstAux]
  | cons x xs ih =>
    intro seen
    by_cases hx : x ∈ seen
    · rw [dedupFirstAux, if_pos hx]
      exact ih seen
    · rw [dedupFirstAux, if_neg hx]
      refine List.nodup_cons.mpr ⟨fun hc => ?_, ih (x :: seen)⟩
      exact ((mem_dedupFirstAux xs (x :: seen)).mp hc).2 (List.mem_cons_self x seen)

/-- `dedupFirstAux` emits elements in the order of their first occurrence
in the input: the output is strictly increasing in `indexOf`. -/
theorem pairwise_dedupFirstAux :
    ∀ (l seen : List CellId),
      (dedupFirstAux seen l).Pairwise (fun a b => l.indexOf a < l.indexOf b) := by
  intro l
  induction l with
  | nil => intro seen; simp [dedupFirstAux]
  | cons x xs ih =>
    intro seen
    by_cases hx : x ∈ seen
    · rw [dedupFirstAux, if_pos hx]
      refine (ih seen).imp_of_mem ?_
      intro a b ha hb hab
      have ha' := ((mem_dedupFirstAux xs seen).mp ha).2
      have hb' := ((mem_dedupFirstAux xs seen).mp hb).2
      have hax : x ≠ a := fun h => ha' (h ▸ hx)
      have hbx : x ≠ b := fun h => hb' (h ▸ hx)
      rw [List.indexOf_cons_ne _ hax, List.indexOf_cons_ne _ hbx]
      exact Nat.succ_lt_succ hab
    · rw [dedupFirstAux, if_neg hx]
      refine List.pairwise_cons.mpr ⟨?_, ?_⟩
      · intro b hb
        have hb' := (mem_dedupFirstAux xs (x :: seen)).mp hb
        have hbx : x ≠ b := fun h => hb'.2 (h ▸ List.mem_cons_self x seen)
        rw [List.indexOf_cons_self, List.indexOf_cons_ne _ hbx]
        exact Nat.succ_pos _
      · refine (ih (x :: seen)).imp_of_mem ?_
        intro a b ha hb hab
        have ha' := (mem_dedupFirstAux xs (x :: seen)).mp ha
        have hb' := (mem_dedupFirstAux xs (x :: seen)).mp hb
        have hax : x ≠ a := fun h => ha'.2 (h ▸ List.mem_cons_self x seen)
        have hbx : x ≠ b := fun h => hb'.2 (h ▸ List.mem_cons_self x seen)
        rw [List.indexOf_cons_ne _ hax, List.indexOf_cons_ne _ hbx]
        exact Nat.succ_lt_succ hab

/-- Membership in `flatten`: exactly the elements of the concatenation. -/
theorem mem_flatten_iff {y : CellId} (arrays : List (List CellId)) :
    y ∈ flatten arrays ↔ y ∈ arrays.flatten := by
  rw [flatten, dedupFirst, mem_dedupFirstAux]
  simp

/-- `flatten` never returns duplicates. -/
theorem nodup_flatten (arrays : List (List CellId)) : (flatten arrays).Nodup :=
  nodup_dedupFirstAux _ _

/-- `flatten` returns cells in first-occurrence order across the
concatenation of its inputs. -/
theorem pairwise_flatten (arrays : List (List CellId)) :
    (flatten arrays).Pairwise
      (fun a b => arrays.flatten.indexOf a < arrays.flatten.indexOf b) :=
  pairwise_dedupFirstAux _ _

/-! ### Centroid -/

/-- The running-sum fold of `centroid`, closed form. -/
theorem centroid_foldl (ring : Ring) :
    ∀ (x y c : ℚ),
      ring.foldl
        (fun (a : ℚ × ℚ × ℚ) pt => (a.1 + pt.1, a.2.1 + pt.2, a.2.2 + 1))
        (x, y, c)
      = (x + (ring.map Prod.fst).sum, y + (ring.map Prod.snd).sum,
         c + ring.length) := by
  induction ring with
  | nil => intro x y c; simp
  | cons pt rest ih =>
    intro x y c
    simp only [List.foldl_cons, ih, List.map_cons, List.sum_cons,
      List.length_cons]
    refine Prod.ext ?_ (Prod.ext ?_ ?_) <;> push_cast <;> ring

/-- The source's `centroid` computes exactly the unweighted vertex mean of
the outer ring (spec §4.4): every vertex of ring 0 enters the mean once,
including a duplicated closing vertex, and holes are ignored. -/
theorem centroid_eq_vertexMean (polygon : Polygon) :
    centroid polygon = vertexMean (polygon.headD []) := by
  rw [centroid, vertexMean]
  rw [centroid_foldl]
  simp

/-! ### Concrete grid libraries for closed instances -/

/-- A concrete grid library on which every fill is degenerate (no cell
center inside), the point-to-cell conversion returns a fixed cell, and the
outline merge yields one outline loop per cell. -/
def gridA : H3Lib where
  polyfill := fun _ _ => []
  geoToH3 := fun _ _ _ => "centroid-cell"
  h3ToGeoBoundary := fun _ => [((0 : ℚ), (0 : ℚ)), (1, 0), (0, 1), (0, 0)]
  h3SetToMultiPolygon := fun cells =>
    cells.map (fun _ => [[((0 : ℚ), (0 : ℚ)), (1, 0), (0, 1), (0, 0)]])

/-- A concrete grid library whose fill returns duplicated cells. -/
def gridB : H3Lib where
  polyfill := fun _ _ => ["x", "x", "y"]
  geoToH3 := fun _ _ _ => "g"
  h3ToGeoBoundary := fun _ => []
  h3SetToMultiPolygon := fun _ => []

/-- The shape of every successful fill result: it is `flatten` applied to
the per-polygon (or per-feature) cell sequences, by the structure of
`featureToH3Set`. -/
theorem featureToH3Set_ok_shape (h3 : H3Lib) (g : GJ) (r : ℕ) (o : Options)
    (l : List CellId) (h : featureToH3Set h3 g r o = .ok l) :
    ∃ arrays, l = flatten arrays := by
  cases g with
  | mk t geom fs =>
    rw [featureToH3Set.eq_def] at h
    dsimp only at h
    by_cases ht : t = some FEATURE_COLLECTION
    · rw [if_pos ht] at h
      cases fs with
      | none => exact absurd h (by simp)
      | some fs' =>
        simp only at h
        cases hm : mapFill h3 fs' r with
        | error e => rw [hm] at h; exact absurd h (by simp [Except.map])
        | ok sets =>
          rw [hm] at h
          simp only [Except.map, Except.ok.injEq] at h
          exact ⟨sets, h.symm⟩
    · rw [if_neg ht] at h
      by_cases ht' : t = some FEATURE
      · rw [if_neg (by simp [ht'])] at h
        cases geom with
        | none => exact absurd h (by simp)
        | some geo =>
          cases geo with
          | polygon C =>
            simp only [Except.ok.injEq] at h
            exact ⟨_, h.symm⟩
          | multiPolygon C =>
            simp only [Except.ok.injEq] at h
            exact ⟨_, h.symm⟩
          | otherGeom u hp hmp => exact absurd h (by simp)
      · rw [if_pos (by simp [ht'])] at h
        exact absurd h (by simp)

/-- C5: `fillSet` never returns duplicate CellIds: every successful result
is deduplicated (first conjunct); and the flattening it applies to the
per-polygon / per-feature cell sequences keeps exactly the cells of their
concatenation, ordered by first occurrence in that concatenation — the
output is strictly increasing in `indexOf` into the concatenation (second
conjunct). -/
theorem fillSet_nodup_first_occurrence :
    (∀ (h3 : H3Lib) (g : GJ) (r : ℕ) (o : Options) (l : List CellId),
        featureToH3Set h3 g r o = .ok l → l.Nodup) ∧
    (∀ arrays : List (List CellId),
        (∀ x, x ∈ flatten arrays ↔ x ∈ arrays.flatten) ∧
        (flatten arrays).Pairwise
          (fun a b => arrays.flatten.indexOf a < arrays.flatten.indexOf b)) := by
  constructor
  · intro h3 g r o l h
    obtain ⟨arrays, rfl⟩ := featureToH3Set_ok_shape h3 g r o l h
    exact nodup_flatten arrays
  · intro arrays
    exact ⟨fun x => mem_flatten_iff arrays, pairwise_flatten arrays⟩

/-- Closed instance of `fillSet_nodup_first_occurrence`: a Feature whose
fill returns `["x", "x", "y"]` yields the deduplicated `["x", "y"]`, and
the flatten of `[["x", "x", "y"], ["y", "z"]]` contains exactly the cells
of the concatenation. -/
theorem fillSet_nodup_first_occurrence_witness :
    (["x", "y"] : List CellId).Nodup ∧
    ("z" ∈ flatten [["x", "x", "y"], ["y", "z"]] ↔
      "z" ∈ ([["x", "x", "y"], ["y", "z"]] : List (List CellId)).flatten) := by
  constructor
  · exact fillSet_nodup_first_occurrence.1 gridB
      (.mk (some "Feature") (some (.polygon [])) none) 9 {} ["x", "y"]
      (by rw [featureToH3Set_poly]; rfl)
  · exact (fillSet_nodup_first_occurrence.2 [["x", "x", "y"], ["y", "z"]]).1 "z"

/-- C7: a Polygon Feature is processed exactly as the one-element
MultiPolygon wrapping its coordinates: `fillSet` returns identical results
on both, for every grid library, resolution, options and remaining
fields. -/
theorem fillSet_polygon_eq_singleton_multipolygon (h3 : H3Lib) (r : ℕ)
    (o : Options) (fs : Option (List GJ)) (C : Polygon) :
    featureToH3Set h3 (.mk (some "Feature") (some (.polygon C)) fs) r o
      = featureToH3Set h3 (.mk (some "Feature") (some (.multiPolygon [C])) fs) r o := by
  rw [featureToH3Set_poly, featureToH3Set_multi]

/-- C4: the unwrap rule of `cellSetToFeature`: more than one outline from
the grid library's merge gives a MultiPolygon with one entry per outline;
exactly one outline gives a Polygon whose coordinates are that outline
directly; no outlines give a Polygon with empty coordinates.  (The result
is a plain value, so no partial output exists besides these.) -/
theorem cellSetToFeature_unwrap (h3 : H3Lib) (S : List CellId) (p : Props) :
    ((h3.h3SetToMultiPolygon S).length > 1 →
      (h3SetToFeature h3 S p).geometry.type = "MultiPolygon" ∧
      (h3SetToFeature h3 S p).geometry.coordinates
        = GeomCoords.multi (h3.h3SetToMultiPolygon S)) ∧
    (∀ outline, h3.h3SetToMultiPolygon S = [outline] →
      (h3SetToFeature h3 S p).geometry.type = "Polygon" ∧
      (h3SetToFeature h3 S p).geometry.coordinates = GeomCoords.poly outline) ∧
    (h3.h3SetToMultiPolygon S = [] →
      (h3SetToFeature h3 S p).geometry.type = "Polygon" ∧
      (h3SetToFeature h3 S p).geometry.coordinates = GeomCoords.poly []) := by
  refine ⟨fun h => ?_, fun outline h => ?_, fun h => ?_⟩
  · constructor
    · simp [h3SetToFeature, if_pos h, MULTI_POLYGON]
    · simp [h3SetToFeature, if_pos h]
  · have hlen : ¬((h3.h3SetToMultiPolygon S).length > 1) := by simp [h]
    constructor
    · simp [h3SetToFeature, if_neg hlen, POLYGON]
    · simp [h3SetToFeature, if_neg hlen, h]
  · have hlen : ¬((h3.h3SetToMultiPolygon S).length > 1) := by simp [h]
    constructor
    · simp [h3SetToFeature, if_neg hlen, POLYGON]
    · simp [h3SetToFeature, if_neg hlen, h]

/-- Closed instance of `cellSetToFeature_unwrap` on `gridA` (one outline
per cell): two cells give a MultiPolygon, one cell gives a Polygon with
that outline directly, and the empty set gives a Polygon with empty
coordinates. -/
theorem cellSetToFeature_unwrap_witness :
    ((h3SetToFeature gridA ["a", "b"] []).geometry.type = "MultiPolygon" ∧
     (h3SetToFeature gridA ["a", "b"] []).geometry.coordinates
       = GeomCoords.multi (gridA.h3SetToMultiPolygon ["a", "b"])) ∧
    ((h3SetToFeature gridA ["a"] []).geometry.type = "Polygon" ∧
     (h3SetToFeature gridA ["a"] []).geometry.coordinates
       = GeomCoords.poly [[((0 : ℚ), (0 : ℚ)), (1, 0), (0, 1), (0, 0)]]) ∧
    ((h3SetToFeature gridA [] []).geometry.type = "Polygon" ∧
     (h3SetToFeature gridA [] []).geometry.coordinates = GeomCoords.poly []) := by
  refine ⟨?_, ?_, ?_⟩
  · exact (cellSetToFeature_unwrap gridA ["a", "b"] []).1 (by simp [gridA])
  · exact (cellSetToFeature_unwrap gridA ["a"] []).2.1
      [[((0 : ℚ), (0 : ℚ)), (1, 0), (0, 1), (0, 0)]] (by simp [gridA])
  · exact (cellSetToFeature_unwrap gridA [] []).2.2 (by simp [gridA])

/-- C8: `cellSetToMultiPolygonFeature` never merges cells: its geometry is
always a MultiPolygon whose coordinates are exactly one single-ring outline
(the cell's own boundary) per input cell, in input order — in particular a
one-element set still yields a MultiPolygon with one outline loop. -/
theorem cellSetToMultiPolygonFeature_per_cell (h3 : H3Lib) (S : List CellId)
    (p : Props) :
    (h3SetToMultiPolygonFeature h3 S p).geometry.type = "MultiPolygon" ∧
    (h3SetToMultiPolygonFeature h3 S p).geometry.coordinates
      = GeomCoords.multi (S.map (fun c => [h3.h3ToGeoBoundary c])) := by
  constructor
  · simp [h3SetToMultiPolygonFeature, MULTI_POLYGON]
  · simp [h3SetToMultiPolygonFeature]

/-- Accumulating push loops are maps: the fold of
`h3SetToFeatureCollection`. -/
theorem foldl_push_eq_map {α β : Type} (F : α → β) :
    ∀ (l : List α) (init : List β),
      l.foldl (fun acc x => acc ++ [F x]) init = init ++ l.map F := by
  intro l
  induction l with
  | nil => intro init; simp
  | cons x xs ih => intro init; simp [ih]

/-- C9: `cellSetToFeatureCollection` builds exactly one Feature per input
cell, in input order, via `cellToFeature`, whose `id` is the cell and whose
properties come from the supplied function (or are `{}`); mapping the
result features to their `id` recovers the input sequence. -/
theorem cellSetToFeatureCollection_per_cell (h3 : H3Lib) (S : List CellId)
    (getProperties : Option (CellId → Props)) :
    (h3SetToFeatureCollection h3 S getProperties).type = "FeatureCollection" ∧
    (h3SetToFeatureCollection h3 S getProperties).features
      = S.map (fun c => h3ToFeature h3 c
          (match getProperties with | some g => g c | none => [])) ∧
    (∀ c props, (h3ToFeature h3 c props).id = some c ∧
                (h3ToFeature h3 c props).properties = props) ∧
    ((h3SetToFeatureCollection h3 S getProperties).features.map
        (fun f => f.id)) = S.map some := by
  have hfeat : (h3SetToFeatureCollection h3 S getProperties).features
      = S.map (fun c => h3ToFeature h3 c
          (match getProperties with | some g => g c | none => [])) := by
    simp only [h3SetToFeatureCollection, foldl_push_eq_map, List.nil_append]
    rfl
  refine ⟨?_, hfeat, ?_, ?_⟩
  · simp [h3SetToFeatureCollection, FEATURE_COLLECTION]
  · intro c props
    exact ⟨rfl, rfl⟩
  · rw [hfeat, List.map_map]
    rfl

/-- C10: the Feature emitted by `cellSetToFeature` carries no `id` field
(modelled as `id = none`, a JS object built without an `id` key: its only
fields are `type`, `properties` and `geometry`), whereas `cellToFeature`
sets `id` to the cell identifier. -/
theorem cellSetToFeature_no_id (h3 : H3Lib) (S : List CellId) (p : Props) :
    (h3SetToFeature h3 S p).id = none ∧
    (h3SetToFeature h3 S p).type = "Feature" ∧
    (h3SetToFeature h3 S p).properties = p ∧
    (∀ c q, (h3ToFeature h3 c q).id = some c) := by
  refine ⟨rfl, ?_, rfl, fun c q => rfl⟩
  simp [h3SetToFeature, FEATURE]

/-- C6: for inputs whose `type` is not "FeatureCollection", `fillSet`
raises the unsupported-feature-type error exactly when `type` is not
"Feature"; and for `type` "Feature" it raises the unsupported-geometry-type
error exactly when the geometry's type is neither "Polygon" nor
"MultiPolygon" (a missing geometry included).  Results are `Except`
values: an error carries no partial cell set. -/
theorem fillSet_error_dispatch (h3 : H3Lib) (r : ℕ) (o : Options)
    (t : Option String) (geom : Option Geometry) (fs : Option (List GJ))
    (ht : t ≠ some "FeatureCollection") :
    ((∃ u, featureToH3Set h3 (.mk t geom fs) r o = .error (.unhandledType u))
        ↔ t ≠ some "Feature") ∧
    (t = some "Feature" →
      ((∃ u, featureToH3Set h3 (.mk t geom fs) r o
            = .error (.unhandledGeometryType u))
        ↔ (geometryType geom ≠ some "Polygon" ∧
           geometryType geom ≠ some "MultiPolygon"))) := by
  by_cases ht2 : t = some "Feature"
  · subst ht2
    constructor
    · simp only [ne_eq, not_true_eq_false, iff_false, not_exists]
      intro u
      cases geom with
      | none =>
        rw [featureToH3Set_badgeom h3 none fs r o (by simp) (by simp)]
        simp
      | some geo =>
        cases geo with
        | polygon C => rw [featureToH3Set_poly]; simp
        | multiPolygon C => rw [featureToH3Set_multi]; simp
        | otherGeom u2 hp hmp =>
          rw [featureToH3Set_badgeom h3 _ fs r o (by simp) (by simp)]
          simp
    · intro _
      cases geom with
      | none =>
        rw [featureToH3Set_badgeom h3 none fs r o (by simp) (by simp)]
        simp [geometryType]
      | some geo =>
        cases geo with
        | polygon C =>
          rw [featureToH3Set_poly]
          simp [geometryType, Geometry.typeStr, POLYGON]
        | multiPolygon C =>
          rw [featureToH3Set_multi]
          simp [geometryType, Geometry.typeStr, MULTI_POLYGON]
        | otherGeom u hp hmp =>
          rw [featureToH3Set_badgeom h3 _ fs r o (by simp) (by simp)]
          refine iff_of_true ⟨u, rfl⟩ ?_
          constructor
          · simpa [geometryType, Geometry.typeStr, POLYGON] using hp
          · simpa [geometryType, Geometry.typeStr, MULTI_POLYGON] using hmp
  · rw [featureToH3Set_badtype h3 t geom fs r o ht ht2]
    constructor
    · exact iff_of_true ⟨t, rfl⟩ ht2
    · intro hc
      exact absurd hc ht2

/-- Closed instance of `fillSet_error_dispatch`: a type `"Banana"` raises
the unsupported-feature-type error; a Feature with a missing geometry
raises the unsupported-geometry-type error. -/
theorem fillSet_error_dispatch_witness :
    ((∃ u, featureToH3Set gridA (.mk (some "Banana") none none) 7 {}
        = .error (.unhandledType u))
      ↔ (some "Banana" : Option String) ≠ some "Feature") ∧
    ((∃ u, featureToH3Set gridA (.mk (some "Feature") none none) 7 {}
        = .error (.unhandledGeometryType u))
      ↔ (geometryType none ≠ some "Polygon" ∧
         geometryType none ≠ some "MultiPolygon")) := by
  constructor
  · exact (fillSet_error_dispatch gridA 7 {} (some "Banana") none none
      (by simp)).1
  · exact (fillSet_error_dispatch gridA 7 {} (some "Feature") none none
      (by simp)).2 rfl

/-- C3: the centroid-fallback policy.  For a Feature whose constituent
polygon `p` polyfills to zero cells (its outer ring being nonempty — in JS
an empty outer ring would make the centroid `NaN`): `fillSet` is the
flatten of the per-polygon results, and `p` contributes exactly the single
cell indexing the unweighted vertex mean of its outer ring (closing
duplicate included, holes and other rings ignored) when
`options.ensureOutput` is true, and the empty set when it is false. -/
theorem fillSet_centroid_fallback (h3 : H3Lib) (r : ℕ) (o : Options)
    (fs : Option (List GJ)) (ps : List Polygon) (p : Polygon)
    (_hp : p ∈ ps) (hempty : h3.polyfill p r = [])
    (_houter : p.headD [] ≠ []) :
    featureToH3Set h3 (.mk (some "Feature") (some (.multiPolygon ps)) fs) r o
      = .ok (flatten (ps.map (polyfillPolygon h3 r o))) ∧
    (o.ensureOutput = true →
      polyfillPolygon h3 r o p
        = [h3.geoToH3 (vertexMean (p.headD [])).2 (vertexMean (p.headD [])).1 r]) ∧
    (o.ensureOutput = false → polyfillPolygon h3 r o p = []) := by
  refine ⟨featureToH3Set_multi h3 ps fs r o, ?_, ?_⟩
  · intro he
    rw [polyfillPolygon]
    simp only [hempty, he, List.length_nil, ne_eq, not_true_eq_false,
      false_or, Bool.true_eq_false, if_false]
    rw [centroid_eq_vertexMean]
  · intro he
    rw [polyfillPolygon]
    simp [hempty, he]

/-- Closed instance of `fillSet_centroid_fallback` on `gridA` (every fill
degenerate): with `ensureOutput` the polygon contributes the single cell at
its vertex mean. -/
theorem fillSet_centroid_fallback_witness :
    featureToH3Set gridA
        (.mk (some "Feature")
          (some (.multiPolygon [[[((0 : ℚ), (0 : ℚ)), (0, 1), (1, 0), (0, 0)]]]))
          none) 9 ⟨true⟩
      = .ok (flatten ([[[((0 : ℚ), (0 : ℚ)), (0, 1), (1, 0), (0, 0)]]].map
          (polyfillPolygon gridA 9 ⟨true⟩))) ∧
    polyfillPolygon gridA 9 ⟨true⟩ [[((0 : ℚ), (0 : ℚ)), (0, 1), (1, 0), (0, 0)]]
      = [gridA.geoToH3
          (vertexMean ([((0 : ℚ), (0 : ℚ)), (0, 1), (1, 0), (0, 0)])).2
          (vertexMean ([((0 : ℚ), (0 : ℚ)), (0, 1), (1, 0), (0, 0)])).1 9] := by
  have h := fillSet_centroid_fallback gridA 9 ⟨true⟩ none
    [[[((0 : ℚ), (0 : ℚ)), (0, 1), (1, 0), (0, 0)]]]
    [[((0 : ℚ), (0 : ℚ)), (0, 1), (1, 0), (0, 0)]]
    (by simp) rfl (by simp)
  exact ⟨h.1, h.2.1 rfl⟩


/-! ### Missing-features analysis (C2) -/

mutual

/-- Whether the value is a FeatureCollection with no `features` field, or
recursively contains one inside the `features` list of a FeatureCollection
— the only way `featureToH3Set` can throw `noFeatures`. -/
def hasMissingFeatures : GJ → Bool
  | .mk t _ none => decide (t = some "FeatureCollection")
  | .mk t _ (some fs) => decide (t = some "FeatureCollection") && anyMissing fs
termination_by g => sizeOf g

/-- Whether some member of the list has a missing `features` field, in the
sense of `hasMissingFeatures`. -/
def anyMissing : List GJ → Bool
  | [] => false
  | f :: rest => hasMissingFeatures f || anyMissing rest
termination_by l => sizeOf l

end

/-- Unfolding of `hasMissingFeatures` on an absent `features` field. -/
theorem hasMissingFeatures_none (t : Option String) (g : Option Geometry) :
    hasMissingFeatures (.mk t g none) = decide (t = some "FeatureCollection") := by
  rw [hasMissingFeatures.eq_def]

/-- Unfolding of `hasMissingFeatures` on a present `features` field. -/
theorem hasMissingFeatures_some (t : Option String) (g : Option Geometry)
    (fs : List GJ) :
    hasMissingFeatures (.mk t g (some fs))
      = (decide (t = some "FeatureCollection") && anyMissing fs) := by
  rw [hasMissingFeatures.eq_def]

/-- Unfolding of `anyMissing` on the empty list. -/
theorem anyMissing_nil : anyMissing [] = false := by
  rw [anyMissing.eq_def]

/-- Unfolding of `anyMissing` on a cons. -/
theorem anyMissing_cons (f : GJ) (rest : List GJ) :
    anyMissing (f :: rest) = (hasMissingFeatures f || anyMissing rest) := by
  rw [anyMissing.eq_def]

/-- If mapping the fill over a feature list throws `noFeatures`, some
member has a missing `features` field (list step of the induction). -/
theorem mapFill_noFeatures_aux (h3 : H3Lib) (r : ℕ) (n : ℕ)
    (ih : ∀ g : GJ, sizeOf g ≤ n → ∀ (h3 : H3Lib) (r : ℕ) (o : Options),
        featureToH3Set h3 g r o = .error .noFeatures →
          hasMissingFeatures g = true) :
    ∀ l : List GJ, (∀ f ∈ l, sizeOf f ≤ n) →
      mapFill h3 l r = .error .noFeatures → anyMissing l = true := by
  intro l
  induction l with
  | nil =>
    intro _ h
    rw [mapFill_nil] at h
    exact absurd h (by simp)
  | cons f rest ihl =>
    intro hsz h
    rw [mapFill_cons] at h
    cases h1 : featureToH3Set h3 f r {} with
    | error e =>
      rw [h1] at h
      dsimp only at h
      injection h with h
      rw [anyMissing_cons]
      have hf := ih f (hsz f (List.mem_cons_self f rest)) h3 r {} (h ▸ h1)
      simp [hf]
    | ok s =>
      rw [h1] at h
      dsimp only at h
      cases h2 : mapFill h3 rest r with
      | error e =>
        rw [h2] at h
        dsimp only at h
        injection h with h
        rw [anyMissing_cons]
        have hr := ihl (fun f hf => hsz f (List.mem_cons_of_mem _ hf)) (h ▸ h2)
        simp [hr]
      | ok ss =>
        rw [h2] at h
        exact absurd h (by simp)

/-- A `noFeatures` error always comes from a FeatureCollection without a
`features` field somewhere along the collection nesting. -/
theorem noFeatures_error_missing :
    ∀ (n : ℕ) (g : GJ), sizeOf g ≤ n → ∀ (h3 : H3Lib) (r : ℕ) (o : Options),
      featureToH3Set h3 g r o = .error .noFeatures →
        hasMissingFeatures g = true := by
  intro n
  induction n with
  | zero =>
    intro g hg
    cases g with
    | mk t geom fs =>
      simp only [GJ.mk.sizeOf_spec] at hg
      omega
  | succ n ih =>
    intro g hg h3 r o herr
    cases g with
    | mk t geom fs =>
      by_cases ht : t = some "FeatureCollection"
      · subst ht
        cases fs with
        | none => rw [hasMissingFeatures_none]; simp
        | some l =>
          rw [featureToH3Set_fc_some] at herr
          rw [hasMissingFeatures_some]
          have hmf : mapFill h3 l r = .error .noFeatures := by
            cases hm : mapFill h3 l r with
            | error e =>
              rw [hm] at herr
              simp only [Except.map] at herr
              injection herr with herr
              rw [herr]
            | ok s =>
              rw [hm] at herr
              exact absurd herr (by simp [Except.map])
          have hsz : ∀ f ∈ l, sizeOf f ≤ n := by
            intro f hf
            have h1 := List.sizeOf_lt_of_mem hf
            simp only [GJ.mk.sizeOf_spec, Option.some.sizeOf_spec] at hg
            omega
          have := mapFill_noFeatures_aux h3 r n ih l hsz hmf
          simp [this]
      · by_cases ht2 : t = some "Feature"
        · subst ht2
          cases geom with
          | none =>
            rw [featureToH3Set_badgeom h3 none fs r o (by simp) (by simp)] at herr
            exact absurd herr (by simp)
          | some geo =>
            cases geo with
            | polygon C =>
              rw [featureToH3Set_poly] at herr
              exact absurd herr (by simp)
            | multiPolygon C =>
              rw [featureToH3Set_multi] at herr
              exact absurd herr (by simp)
            | otherGeom u hp hmp =>
              rw [featureToH3Set_badgeom h3 _ fs r o (by simp) (by simp)] at herr
              exact absurd herr (by simp)
        · rw [featureToH3Set_badtype h3 t geom fs r o ht ht2] at herr
          exact absurd herr (by simp)

/-- C2 counterexample: a FeatureCollection whose `features` field is
present (a one-element list) still raises the missing-features error,
because its member is a FeatureCollection with no `features` field and the
error propagates — refuting "raises if and only if the input has no
`features` field at all". -/
theorem fillSet_missing_features_counterexample :
    (GJ.mk (some "FeatureCollection") none
        (some [GJ.mk (some "FeatureCollection") none none])).features ≠ none ∧
    featureToH3Set gridA
        (GJ.mk (some "FeatureCollection") none
          (some [GJ.mk (some "FeatureCollection") none none])) 7 {}
      = .error .noFeatures := by
  constructor
  · simp [GJ.features]
  · rw [featureToH3Set_fc_some, mapFill_cons, featureToH3Set_fc_none, mapFill_nil]
    rfl

/-- C2 amended: a FeatureCollection with no `features` field raises the
missing-features error; one whose `features` is an empty list raises no
error and returns the empty cell set; and whenever `fillSet` raises the
missing-features error, the input or some FeatureCollection nested in its
`features` lists has no `features` field. -/
theorem fillSet_missing_features_amended :
    (∀ (h3 : H3Lib) (g : Option Geometry) (r : ℕ) (o : Options),
        featureToH3Set h3 (.mk (some "FeatureCollection") g none) r o
          = .error .noFeatures) ∧
    (∀ (h3 : H3Lib) (g : Option Geometry) (r : ℕ) (o : Options),
        featureToH3Set h3 (.mk (some "FeatureCollection") g (some [])) r o
          = .ok []) ∧
    (∀ (h3 : H3Lib) (g : GJ) (r : ℕ) (o : Options),
        featureToH3Set h3 g r o = .error .noFeatures →
          hasMissingFeatures g = true) := by
  refine ⟨featureToH3Set_fc_none, ?_, ?_⟩
  · intro h3 g r o
    rw [featureToH3Set_fc_some, mapFill_nil]
    rfl
  · intro h3 g r o herr
    exact noFeatures_error_missing (sizeOf g) g (Nat.le_refl _) h3 r o herr

/-- Closed instance of `fillSet_missing_features_amended`: the nested
collection input of the counterexample is reported by
`hasMissingFeatures`, and a missing `features` field raises. -/
theorem fillSet_missing_features_amended_witness :
    hasMissingFeatures
        (GJ.mk (some "FeatureCollection") none
          (some [GJ.mk (some "FeatureCollection") none none])) = true ∧
    featureToH3Set gridA (.mk (some "FeatureCollection") none none) 7 {}
      = .error .noFeatures := by
  constructor
  · refine fillSet_missing_features_amended.2.2 gridA
      (GJ.mk (some "FeatureCollection") none
        (some [GJ.mk (some "FeatureCollection") none none])) 7 {} ?_
    rw [featureToH3Set_fc_some, mapFill_cons, featureToH3Set_fc_none, mapFill_nil]
    rfl
  · exact fillSet_missing_features_amended.1 gridA none 7 {}

/-- C1: failing evaluation.  `featureCollectionToH3Set` (source line 82)
calls `featureToH3Set(feature, resolution)` without forwarding `options`,
so a contained degenerate Feature is filled with `ensureOutput` dropped:
on `gridA` (every fill degenerate) the collection with
`options.ensureOutput = true` returns the empty set, while filling its
single member at the same resolution with the same options returns the
centroid cell — so the collection result is not the union-deduplication of
the members filled at the same options, contradicting the claim and the
function's own documentation of `ensureOutput`. -/
theorem fillSet_collection_drops_options :
    featureToH3Set gridA
        (GJ.mk (some "FeatureCollection") none
          (some [GJ.mk (some "Feature")
            (some (.polygon [[((0 : ℚ), (0 : ℚ)), (0, 1), (1, 0), (0, 0)]]))
            none])) 9 ⟨true⟩
      = .ok [] ∧
    featureToH3Set gridA
        (GJ.mk (some "Feature")
          (some (.polygon [[((0 : ℚ), (0 : ℚ)), (0, 1), (1, 0), (0, 0)]]))
          none) 9 ⟨true⟩
      = .ok ["centroid-cell"] ∧
    flatten [["centroid-cell"]] = ["centroid-cell"] ∧
    featureToH3Set gridA
        (GJ.mk (some "FeatureCollection") none
          (some [GJ.mk (some "Feature")
            (some (.polygon [[((0 : ℚ), (0 : ℚ)), (0, 1), (1, 0), (0, 0)]]))
            none])) 9 ⟨true⟩
      ≠ .ok (flatten [["centroid-cell"]]) := by
  have h1 : featureToH3Set gridA
      (GJ.mk (some "FeatureCollection") none
        (some [GJ.mk (some "Feature")
          (some (.polygon [[((0 : ℚ), (0 : ℚ)), (0, 1), (1, 0), (0, 0)]]))
          none])) 9 ⟨true⟩ = .ok [] := by
    rw [featureToH3Set_fc_some, mapFill_cons, featureToH3Set_poly, mapFill_nil]
    rfl
  have h2 : featureToH3Set gridA
      (GJ.mk (some "Feature")
        (some (.polygon [[((0 : ℚ), (0 : ℚ)), (0, 1), (1, 0), (0, 0)]]))
        none) 9 ⟨true⟩ = .ok ["centroid-cell"] := by
    rw [featureToH3Set_poly]
    rfl
  refine ⟨h1, h2, rfl, ?_⟩
  rw [h1]
  simp [flatten, dedupFirst, dedupFirstAux]

end Geojson2h3

